import Mathlib

/-!
Verification of the deep-research engine (orchestrator / researcher state
machines, citation extraction, source de-duplication, MMR re-ranking,
Markdown export, session search cache).

Shallow embedding conventions:
* Python strings are Lean `String`s processed at the `List Char` level.
* Python `re.findall` over the fixed citation pattern is embedded as an
  explicit left-to-right scanner (`scanCitationsAux`); `\s` is modelled as
  the ASCII whitespace characters space, tab, LF, CR, VT, FF.
* Python sets of ints / strings are `Finset ℕ` / `Finset String`;
  `sorted(set)` is the ascending enumeration `sortedIds`.
* Python floats are embedded as rationals `ℚ` (all arithmetic reaching the
  claims is exact decimal arithmetic).
* Network / model calls are oracle parameters: a node that consults the
  model takes the model's (arbitrary) answer as an argument.
-/

/-! ### Citation extraction (src/nodes/orchestrator.py `extract_all_citations`,
src/utils/export.py `extract_citations_from_text`)

Both files contain the identical function: `re.findall(r'\[([0-9,\s]+)\]', text)`,
then split each captured group on commas, keep the stripped tokens that are all
digits, and collect the ints into a set. -/

/-- ASCII whitespace recognised by the regex class `\s` (and by `str.strip`
on the tokens, which only ever contain characters of the class). -/
def isPySpace (c : Char) : Bool :=
  c = ' ' || c = '\t' || c = '\n' || c = '\r' || c = '\x0b' || c = '\x0c'

/-- Characters matched by the regex character class `[0-9,\s]`. -/
def isCiteChar (c : Char) : Bool :=
  c.isDigit || c = ',' || isPySpace c

/-- Left-to-right non-overlapping scan for the pattern `\[([0-9,\s]+)\]`,
returning the captured groups in order.  At a `[` the engine takes the maximal
run of class characters (the class excludes `]`, so backtracking cannot produce
a shorter successful run) and succeeds iff the run is non-empty and followed by
`]`; on success scanning resumes after the `]`, on failure one position later.
The fuel argument only bounds the recursion; `length + 1` fuel always
suffices because every step consumes at least one character. -/
def scanCitationsAux : Nat → List Char → List (List Char)
  | 0, _ => []
  | _ + 1, [] => []
  | fuel + 1, c :: rest =>
    if c = '[' then
      let run := rest.takeWhile isCiteChar
      let after := rest.drop run.length
      match after with
      | ']' :: tail =>
        if run.isEmpty then scanCitationsAux fuel rest
        else run :: scanCitationsAux fuel tail
      | _ => scanCitationsAux fuel rest
    else scanCitationsAux fuel rest

/-- Python `str.split(',')` on a character list: splits at every comma,
keeping empty pieces (`"".split(',') == [""]`). -/
def splitOnComma : List Char → List (List Char)
  | [] => [[]]
  | c :: rest =>
    if c = ',' then [] :: splitOnComma rest
    else
      match splitOnComma rest with
      | [] => [[c]]
      | g :: gs => (c :: g) :: gs

/-- Python `str.strip()` restricted to the characters that can occur in a
captured group (digits, commas and ASCII whitespace). -/
def stripChars (cs : List Char) : List Char :=
  ((cs.dropWhile isPySpace).reverse.dropWhile isPySpace).reverse

/-- Python `int` on a non-empty all-digit string. -/
def digitsToNat (cs : List Char) : Nat :=
  cs.foldl (fun n c => n * 10 + (c.toNat - '0'.toNat)) 0

/-- `extract_all_citations` (orchestrator.py lines 52-75): extract all citation
ids from text, handling both `[1]` and `[1, 2, 3]` formats; non-numeric tokens
are dropped by the `isdigit` test. -/
def extract_all_citations (text : String) : Finset Nat :=
  let groups := scanCitationsAux (text.data.length + 1) text.data
  (groups.flatMap (fun g =>
    (splitOnComma g).filterMap (fun tok =>
      let t := stripChars tok
      if t ≠ [] ∧ t.all Char.isDigit then some (digitsToNat t) else none))).toFinset

/-- `extract_citations_from_text` (export.py lines 29-55): the exporter's copy
of the same function, with the identical body. -/
def extract_citations_from_text (text : String) : Finset Nat :=
  let groups := scanCitationsAux (text.data.length + 1) text.data
  (groups.flatMap (fun g =>
    (splitOnComma g).filterMap (fun tok =>
      let t := stripChars tok
      if t ≠ [] ∧ t.all Char.isDigit then some (digitsToNat t) else none))).toFinset

/-- Python `sorted(s)` for a finite set of naturals: the ascending enumeration
of the set's elements. -/
def sortedIds (f : Finset Nat) : List Nat :=
  (List.range (f.sup id + 1)).filter (fun n => decide (n ∈ f))

theorem mem_sortedIds (f : Finset Nat) (n : Nat) : n ∈ sortedIds f ↔ n ∈ f := by
  constructor
  · intro h
    have := List.of_mem_filter h
    simpa using this
  · intro h
    refine List.mem_filter.2 ⟨List.mem_range.2 ?_, by simpa using h⟩
    exact Nat.lt_succ_of_le (Finset.le_sup (f := id) h)

/-! ### Sources and de-duplication (orchestrator.py lines 16-32, 307-310)

A source dict carries `url`, `title`, `snippet` and — after synthesis —
a 1-based `id`.  The optional Python `id` key is modelled as a plain field
that `assignIds` overwrites (its prior value is never read). -/

structure Source where
  url : String
  title : String
  id : Nat
deriving DecidableEq

/-- URL normalisation inside `deduplicate_sources`: `url.split("#")[0]`
(everything before the first `#`; a no-op when there is no `#`) followed by
`url.rstrip("/")` (drop every trailing slash). -/
def normalizeUrl (u : String) : String :=
  ⟨(((u.data.takeWhile (fun c => c ≠ '#')).reverse.dropWhile (fun c => c = '/')).reverse)⟩

/-- Recursion of `deduplicate_sources` carrying the `seen_urls` set (modelled
as the list of normalised URLs already seen).  A source is kept iff its
normalised URL is non-empty (`if url`) and unseen; the original, unnormalised
source is what gets appended. -/
def dedupAux (seen : List String) : List Source → List Source
  | [] => []
  | s :: rest =>
    let url := normalizeUrl s.url
    if url ≠ "" ∧ url ∉ seen then s :: dedupAux (url :: seen) rest
    else dedupAux seen rest

/-- `deduplicate_sources` (orchestrator.py lines 16-32). -/
def deduplicate_sources (sources : List Source) : List Source :=
  dedupAux [] sources

/-- The id-assignment loop of `synthesize_node` (lines 309-310):
`for i, source in enumerate(unique_sources, 1): source["id"] = i`,
unrolled with an explicit starting counter. -/
def assignIdsFrom (n : Nat) : List Source → List Source
  | [] => []
  | s :: rest => { s with id := n } :: assignIdsFrom (n + 1) rest

def assignIds (sources : List Source) : List Source :=
  assignIdsFrom 1 sources

/-! ### Orchestrator data model (states.py, orchestrator.py)

`completed` entries are the dicts built at dispatch reconciliation
(topic, findings, sources, gaps, quality_metrics); of the quality metrics
only `confidence` is read downstream (critique, synthesize), so it is the
one metric field retained. -/

structure CompletedTopic where
  topic : String
  findings : String
  sources : List Source
  gaps : List String
  confidence : ℚ
deriving DecidableEq

/-- A retry-queue entry (`{"topic", "attempt", "last_error", "last_attempt_at"}`).
`attempt` is 1-based; `last_attempt_at` records the orchestrator iteration at
which the failed run was launched. -/
structure RetryItem where
  topic : String
  attempt : Nat
  last_error : String
  last_attempt_at : Nat
deriving DecidableEq

/-- `OrchestratorState` (states.py lines 49-62) restricted to the fields the
orchestrator nodes read or write (`query, sub_topics, iteration,
max_iterations, completed, all_sources, retry_queue, global_scraped_urls,
failed_topics`); `depth`, `identified_gaps`, `report`, `overall_quality` and
`synthesis_result` are carried through unread by the nodes modelled here. -/
structure OrchestratorState where
  query : String
  sub_topics : List String
  iteration : Nat
  max_iterations : Nat
  completed : List CompletedTopic
  all_sources : List Source
  retry_queue : List RetryItem
  global_scraped_urls : Finset String
  failed_topics : Finset String
deriving DecidableEq

/-! ### Retry-queue processing inside `dispatch_node` (lines 152-165)

Python evaluates `current_iter - retry["last_attempt_at"] >= 2 ** (attempt - 1)`
over ints.  Both iteration values are naturals here, so with truncated `Nat`
subtraction the comparison is unchanged: when `last_attempt_at > current_iter`
both sides of either reading make the item ineligible (the wait is `≥ 1`; even
for the out-of-invariant value `attempt = 0`, Python's wait of `0.5` and this
model's wait of `1` accept exactly the same integers). -/

structure RetrySplit where
  toRetry : List RetryItem
  kept : List RetryItem
  failed : Finset String
deriving DecidableEq

/-- The `for retry in state.get("retry_queue", [])` loop: eligible items with
`attempt < 3` go to `retry_topics` (`toRetry`), eligible items with
`attempt ≥ 3` put their topic into `failed_topics` (`failed`), ineligible
items stay in `new_retry_queue` (`kept`); all in queue order. -/
def processRetryQueue (i : Nat) : List RetryItem → RetrySplit
  | [] => ⟨[], [], ∅⟩
  | r :: rest =>
    let prev := processRetryQueue i rest
    if 2 ^ (r.attempt - 1) ≤ i - r.last_attempt_at then
      if r.attempt < 3 then ⟨r :: prev.toRetry, prev.kept, prev.failed⟩
      else ⟨prev.toRetry, prev.kept, insert r.topic prev.failed⟩
    else ⟨prev.toRetry, r :: prev.kept, prev.failed⟩

/-! ### Dispatch (orchestrator.py lines 138-248) -/

/-- `startsWithSeq hay pat` : `pat` occurs at the head of `hay`. -/
def startsWithSeq : List Char → List Char → Bool
  | _, [] => true
  | [], _ :: _ => false
  | a :: as, b :: bs => a = b && startsWithSeq as bs

/-- Python `pat in hay` substring test. -/
def containsSeq : List Char → List Char → Bool
  | [], pat => pat.isEmpty
  | hay@(_ :: rest), pat => startsWithSeq hay pat || containsSeq rest pat

def strContains (hay pat : String) : Bool :=
  containsSeq hay.data pat.data

def lowerStr (s : String) : String :=
  ⟨s.data.map Char.toLower⟩

/-- Error classification at reconciliation (lines 209-210):
`"timeout" in error_str.lower() or "429" in error_str`. -/
def isRetriable (msg : String) : Bool :=
  strContains (lowerStr msg) ("timeout") || strContains msg ("429")

/-- Outcome of one researcher-graph invocation, as observed by
`asyncio.gather(..., return_exceptions=True)`: either the researcher's final
state (projected to the fields reconciliation reads: the completed-topic
record and the scraped URLs) or a raised exception's message. -/
inductive RunResult where
  | ok (c : CompletedTopic) (scraped : List String)
  | err (msg : String)

/-- `pending_topics` (lines 147-150): sub-topics not yet completed and not
failed.  Computed from the state's `failed_topics` before the retry loop adds
newly exhausted topics, exactly as in the source. -/
def pendingTopics (s : OrchestratorState) : List String :=
  s.sub_topics.filter (fun t =>
    !(s.completed.any (fun c => c.topic == t)) && !(decide (t ∈ s.failed_topics)))

structure DispatchTask where
  topic : String
  is_retry : Bool
deriving DecidableEq

/-- Batch construction (lines 167-175): up to 3 tasks, eligible retries first,
then pending topics filling the remaining slots. -/
def tasksToRun (s : OrchestratorState) : List DispatchTask :=
  let retryTasks := ((processRetryQueue s.iteration s.retry_queue).toRetry.take 3).map
    (fun r => ⟨r.topic, true⟩)
  retryTasks ++ ((pendingTopics s).take (3 - retryTasks.length)).map (fun t => ⟨t, false⟩)

/-- Accumulator of the reconciliation loop (lines 201-239): new completed
records, new sources, the retry queue being extended, the global scraped-URL
set, and the failed-topic set. -/
structure Reconcile where
  newCompleted : List CompletedTopic
  newSources : List Source
  queue : List RetryItem
  scraped : Finset String
  failed : Finset String

/-- One step of the reconciliation loop for task result `res` (lines 205-239).
On a retriable error the attempt count continues from the matching entry of
this round's `retry_topics` (`next((r for r in retry_topics ...), None)`), else
starts at 1; `last_attempt_at` records the pre-increment `state["iteration"]`. -/
def reconcileStep (retryTopics : List RetryItem) (iter : Nat)
    (acc : Reconcile) (t : DispatchTask) (res : RunResult) : Reconcile :=
  match res with
  | .ok c scraped =>
    { acc with newCompleted := acc.newCompleted ++ [c],
               newSources := acc.newSources ++ c.sources,
               scraped := acc.scraped ∪ scraped.toFinset }
  | .err msg =>
    if isRetriable msg then
      let attempt :=
        match retryTopics.find? (fun r => r.topic == t.topic) with
        | some existing => existing.attempt + 1
        | none => 1
      { acc with queue := acc.queue ++ [⟨t.topic, attempt, msg, iter⟩] }
    else
      { acc with failed := insert t.topic acc.failed }

/-- `dispatch_node` (lines 138-248), with the concurrent researcher runs
represented by the oracle `o : String → RunResult` mapping each task's topic
to its outcome.  An empty batch returns only the updated failed-topics /
retry-queue (no iteration increment); otherwise every task runs, results are
reconciled in task order, and `iteration` increments by exactly one. -/
def dispatch_node (o : String → RunResult) (s : OrchestratorState) : OrchestratorState :=
  let split := processRetryQueue s.iteration s.retry_queue
  let failed1 := s.failed_topics ∪ split.failed
  let tasks := tasksToRun s
  if tasks.isEmpty then
    { s with failed_topics := failed1, retry_queue := split.kept }
  else
    let init : Reconcile := ⟨[], [], split.kept, s.global_scraped_urls, failed1⟩
    let fin := tasks.foldl (fun acc t => reconcileStep split.toRetry s.iteration acc t (o t.topic)) init
    { s with completed := s.completed ++ fin.newCompleted,
             all_sources := s.all_sources ++ fin.newSources,
             retry_queue := fin.queue,
             global_scraped_urls := fin.scraped,
             failed_topics := fin.failed,
             iteration := s.iteration + 1 }

/-! ### Critique (lines 251-298) and the orchestrator edge (lines 378-391) -/

/-- Mean confidence over completed topics, default 0 on the empty list
(line 266; critique's per-entry default of 0 is irrelevant here because the
model always carries a confidence). -/
def critiqueAvgConfidence (l : List CompletedTopic) : ℚ :=
  if l.isEmpty then 0 else (l.map (fun c => c.confidence)).sum / l.length

/-- `critique_node` (lines 251-298) with the SMART-model's follow-up topics
supplied as the oracle list `newTopics` (already capped at 3 inside
`generate_followup_topics`; an exception there yields `[]`).  Appends at most
2 new unseen topics when mean confidence is below 0.60 and
`iteration < min(max_iterations, 4)`; never touches `iteration`. -/
def critique_node (newTopics : List String) (s : OrchestratorState) : OrchestratorState :=
  if s.completed.isEmpty then s
  else if critiqueAvgConfidence s.completed < 6/10 ∧ s.iteration < min s.max_iterations 4 then
    let finalNew := (newTopics.filter (fun t => !(s.sub_topics.contains t))).take 2
    if finalNew.isEmpty then s
    else { s with sub_topics := s.sub_topics ++ finalNew }
  else s

/-- `should_continue_orchestrator` (lines 378-391). -/
def should_continue_orchestrator (s : OrchestratorState) : String :=
  if (pendingTopics s ≠ [] ∨ s.retry_queue ≠ []) ∧ s.iteration < s.max_iterations
  then "dispatch" else "synthesize"

/-- `plan_node` (lines 120-135): initialises the retry queue, the global
scraped-URL set and the failed-topic set. -/
def plan_node (s : OrchestratorState) : OrchestratorState :=
  { s with retry_queue := [], global_scraped_urls := ∅, failed_topics := ∅ }

/-- The orchestrator loop after `plan` (graphs.py lines 64-71):
dispatch → critique → (loop | synthesize), with per-round oracles for the
researcher outcomes (`oD`) and critique's follow-up topics (`oC`).  Returns
the state in which `synthesize` is entered (or the state reached when fuel
runs out; any fuel `≥ max_iterations` is enough in reality because dispatch
is re-entered only below the iteration cap). -/
def orchRun (oD : Nat → String → RunResult) (oC : Nat → List String) :
    Nat → OrchestratorState → OrchestratorState
  | 0, s => s
  | fuel + 1, s =>
    let s1 := critique_node (oC fuel) (dispatch_node (oD fuel) s)
    if should_continue_orchestrator s1 = "dispatch" then orchRun oD oC fuel s1 else s1

/-! ### Synthesis (lines 301-375) -/

structure SynthMeta where
  confidence : ℚ
  source_count : Nat
  sources_cited : Nat
deriving DecidableEq

/-- `SynthesisResult` (states.py lines 65-70). -/
structure SynthesisResult where
  report_text : String
  sources_used : List Source
  citations : List Nat
  metadata : SynthMeta
deriving DecidableEq

/-- Mean confidence at synthesis (lines 333-334): per-entry default 0.5,
overall default 0.5 on no completed topics. -/
def synthAvgConfidence (l : List CompletedTopic) : ℚ :=
  if l.isEmpty then 1/2 else (l.map (fun c => c.confidence)).sum / l.length

/-- The success path of `synthesize_node` (lines 307-354) as a function of the
model's returned report text: de-duplicate, assign 1-based ids, extract the
cited ids from the report (no filtering against the source list), and build
the structured result. -/
def synthesize_success (s : OrchestratorState) (report_text : String) : SynthesisResult :=
  let unique := assignIds (deduplicate_sources s.all_sources)
  let cited := sortedIds (extract_all_citations report_text)
  { report_text := report_text
    sources_used := unique
    citations := cited
    metadata := ⟨synthAvgConfidence s.completed, unique.length, cited.length⟩ }

/-- The fallback report of the failure path (lines 359-361). -/
def fallbackReport (s : OrchestratorState) : String :=
  s.completed.foldl (fun acc r => acc ++ "## " ++ r.topic ++ "\n\n" ++ r.findings ++ "\n\n")
    ("# " ++ s.query ++ "\n\n")

/-- The model-failure path of `synthesize_node` (lines 356-375): concatenated
findings as the report, empty citations, confidence pinned at 0.3. -/
def synthesize_fallback (s : OrchestratorState) : SynthesisResult :=
  let unique := assignIds (deduplicate_sources s.all_sources)
  { report_text := fallbackReport s
    sources_used := unique
    citations := []
    metadata := ⟨3/10, unique.length, 0⟩ }

/-! ### Researcher state machine (researcher.py, graphs.py lines 22-42)

The graph is search → scrape_index → retrieve → reflect, with the single
branch point reflect → {search, summarize} decided by `should_continue`.
Of the nodes on the loop, only `reflect_node` reads or writes `iteration`,
`max_iterations` or `reflections` (search touches `searches`/`sources`,
scrape_index touches `scraped_urls`/`rag`/`scraped_content`, retrieve touches
`retrieved_chunks`), so the loop-control state is projected to those three
fields plus the topic. -/

/-- A reflection record (states.py line 39 `reflections: List[Dict]`; the
keys written by `reflect_node` after `setdefault`).  Only `continue_research`
is read by `should_continue`. -/
structure Reflection where
  facts_learned : List String
  gaps : List String
  confidence : ℚ
  continue_research : Bool
  next_query : String
deriving DecidableEq

/-- `ResearcherState` (states.py lines 27-46) projected to the loop-control
fields. -/
structure ResearcherState where
  topic : String
  iteration : Nat
  max_iterations : Nat
  reflections : List Reflection
deriving DecidableEq

/-- The initial researcher state built by `run_single_researcher`
(orchestrator.py lines 100-115): `iteration = 0`, empty reflections.  The
source instantiates `max_iterations = 2`; it is kept as a parameter so the
cap-dependent claims can be stated for every cap. -/
def initialResearcherState (topic : String) (m : Nat) : ResearcherState :=
  ⟨topic, 0, m, []⟩

/-- `reflect_node` (researcher.py lines 172-257).  It first computes
`iter_count = iteration + 1`; if that has reached `max_iterations` it returns
only the incremented counter — no reflection is appended and the model is not
consulted.  Otherwise some reflection is appended (the coverage short-circuit,
the model's JSON answer after defaults and coverage overrides, or the
exception fallback) together with the incremented counter; the record `r`
supplied by the oracle stands for whichever of those reflections results, so
quantifying over `r` covers every model answer. -/
def reflect_node (r : Reflection) (s : ResearcherState) : ResearcherState :=
  let iterCount := s.iteration + 1
  if s.max_iterations ≤ iterCount then { s with iteration := iterCount }
  else { s with iteration := iterCount, reflections := s.reflections ++ [r] }

/-- `should_continue` (researcher.py lines 315-328). -/
def should_continue (s : ResearcherState) : String :=
  if s.max_iterations ≤ s.iteration then "summarize"
  else
    match s.reflections.getLast? with
    | none => "search"
    | some last => if last.continue_research then "search" else "summarize"

/-- The researcher loop, counting passes through `reflect`: each round runs
search → scrape_index → retrieve (which leave the control fields untouched)
and then `reflect_node`; if `should_continue` then routes to `summarize` the
loop ends, reporting how many reflect passes were made.  `orc` supplies the
reflection appended at the pass starting from iteration count `n`; `none`
means the fuel ran out before `summarize` was reached. -/
def reflectLoop (orc : Nat → Reflection) : Nat → ResearcherState → Option Nat
  | 0, _ => none
  | fuel + 1, s =>
    let s1 := reflect_node (orc s.iteration) s
    if should_continue s1 = "summarize" then some 1
    else
      match reflectLoop orc fuel s1 with
      | some p => some (p + 1)
      | none => none

/-! ### MMR re-ranking (src/rag/enhanced_store.py lines 180-215) -/

/-- Python `content.lower().split()`: split on runs of whitespace, dropping
empty pieces, after lower-casing. -/
def splitWordsAux : List Char → List Char → List String
  | [], acc => if acc.isEmpty then [] else [⟨acc.reverse⟩]
  | c :: rest, acc =>
    if isPySpace c then
      (if acc.isEmpty then [] else [(⟨acc.reverse⟩ : String)]) ++ splitWordsAux rest []
    else splitWordsAux rest (c :: acc)

/-- `set(content.lower().split())` — the vocabulary of a chunk. -/
def wordsOf (s : String) : Finset String :=
  (splitWordsAux (s.data.map Char.toLower) []).toFinset

/-- A retrieved chunk as read by `_calculate_mmr_scores`: only `content` and
`score` are consulted. -/
structure Chunk where
  content : String
  score : ℚ
deriving DecidableEq

/-- Jaccard word overlap (lines 206-208):
`len(words_i & words_j) / max(len(words_i | words_j), 1)`. -/
def jaccardSim (a b : Finset String) : ℚ :=
  ((a ∩ b).card : ℚ) / ((max (a ∪ b).card 1 : Nat) : ℚ)

/-- `lambda_param` default (line 181). -/
def lambdaParam : ℚ := 7/10

/-- `max_sim` for chunk `c` against the already-selected chunks (lines
204-209), starting from `0.0`. -/
def maxSimTo (c : Chunk) (selected : List Chunk) : ℚ :=
  selected.foldl (fun m p => max m (jaccardSim (wordsOf c.content) (wordsOf p.content))) 0

/-- The enumeration loop of `_calculate_mmr_scores` (lines 196-213): every
processed chunk is added to `selected`, so the selected set at chunk `i` is
exactly the chunks before it; chunk 0 keeps its raw score, every later chunk
gets `λ·score − (1−λ)·max_sim`. -/
def mmrAux (selected : List Chunk) : List Chunk → List ℚ
  | [] => []
  | c :: rest =>
    (if selected.isEmpty then c.score
     else lambdaParam * c.score - (1 - lambdaParam) * maxSimTo c selected)
      :: mmrAux (selected ++ [c]) rest

/-- `_calculate_mmr_scores` (enhanced_store.py lines 180-215) at the default
`lambda_param = 0.7`. -/
def calculate_mmr_scores (chunks : List Chunk) : List ℚ :=
  mmrAux [] chunks

/-! ### Markdown export (src/utils/export.py lines 58-121)

The pure core of `export_to_markdown_from_json`: the References section.
`source_map = {s.get('id'): s for s in sources}` is a dict comprehension, so a
later source with the same id overwrites an earlier one. -/

/-- One insertion `map[s.id] = s` of the dict comprehension, as a function
update. -/
def dictStep (m : Nat → Option Source) (s : Source) : Nat → Option Source :=
  fun k => if k = s.id then some s else m k

def dictOfSources (sources : List Source) : Nat → Option Source :=
  sources.foldl dictStep (fun _ => none)

/-- The References entries (lines 87, 105-112): for each cited id in ascending
order, the source under that id in `source_map`, skipped when absent. -/
def referencesEntries (report_text : String) (sources : List Source) :
    List (Nat × Source) :=
  (sortedIds (extract_citations_from_text report_text)).filterMap
    (fun i => (dictOfSources sources i).map (fun s => (i, s)))

/-! ### Session search cache (src/cache/memory_cache.py lines 15-89) -/

/-- A normalised search result (`{title, link, snippet}`). -/
structure SearchResult where
  title : String
  link : String
  snippet : String
deriving DecidableEq

/-- The cache-relevant state of `CachedGoogleSearcher`: the session's
`search_cache` mapping plus a counter of calls made to the underlying network
search client (the observable the cache claims speak about). -/
structure CacheState where
  search_cache : String → Option (List SearchResult)
  networkCalls : Nat

/-- `CachedGoogleSearcher.search` (lines 78-89), with the underlying
`GoogleSearcher.search` represented by the oracle `oracle n` giving the result
list of the `n`-th network call.  `if cached:` is Python truthiness: both a
missing key and a stored empty list fall through to the network; a non-empty
cached list is returned truncated to `num_results` with no network call.  On
a miss the full result list is stored, but only when it is non-empty. -/
def cached_search (oracle : Nat → List SearchResult) (st : CacheState)
    (q : String) (num_results : Nat) : List SearchResult × CacheState :=
  match st.search_cache q with
  | some cached =>
    if cached.isEmpty then
      let results := oracle st.networkCalls
      let newCache := fun q2 =>
        if results.isEmpty then st.search_cache q2
        else if q2 = q then some results else st.search_cache q2
      (results, ⟨newCache, st.networkCalls + 1⟩)
    else (cached.take num_results, st)
  | none =>
    let results := oracle st.networkCalls
    let newCache := fun q2 =>
      if results.isEmpty then st.search_cache q2
      else if q2 = q then some results else st.search_cache q2
    (results, ⟨newCache, st.networkCalls + 1⟩)

/-! ### Concrete fixtures used by counterexamples and witnesses -/

/-- A researcher outcome oracle whose every run raises a retriable timeout. -/
def alwaysTimeout : String → RunResult := fun _ => .err ("timeout")

/-- A critique oracle producing no follow-up topics. -/
def noTopics : Nat → List String := fun _ => []

/-- An orchestrator state as seeded by the pipeline (iteration 0,
`max_iterations` = 8 for depth "deep") with the single sub-topic `"T"`,
after `plan_node`. -/
def cexInit : OrchestratorState :=
  ⟨"q", ["T"], 0, 8, [], [], [], ∅, ∅⟩

/-- The states after the first, second and third dispatch → critique rounds
under the always-timeout oracle. -/
def cexS1 : OrchestratorState := critique_node (noTopics 0) (dispatch_node alwaysTimeout cexInit)

def cexS2 : OrchestratorState := critique_node (noTopics 1) (dispatch_node alwaysTimeout cexS1)

def cexS3 : OrchestratorState := critique_node (noTopics 2) (dispatch_node alwaysTimeout cexS2)

/-- How many of a dispatch call's batch tasks run topic `"T"`. -/
def runCountT (s : OrchestratorState) : Nat :=
  ((tasksToRun s).filter (fun t => t.topic == "T")).length

/-- An orchestrator state holding one collected source and no completed
topics, at the point where `synthesize_node` runs. -/
def cexSynthState : OrchestratorState :=
  ⟨"q", [], 0, 8, [], [⟨"https://a.com", "A", 0⟩], [], ∅, ∅⟩

/-- A reflection oracle that always asks to continue researching. -/
def contTrue : Nat → Reflection := fun _ => ⟨[], [], 7/10, true, ""⟩

/-- A network-search oracle that always returns no results. -/
def emptyOracle : Nat → List SearchResult := fun _ => []

/-- A network-search oracle that always returns one result. -/
def oneOracle : Nat → List SearchResult := fun _ => [⟨"t", "https://x.com", "s"⟩]

/-- The searcher's cache state at session start: empty cache, no network
calls made. -/
def cacheInit : CacheState := ⟨fun _ => none, 0⟩

/-! ### Helper lemmas: de-duplication and id assignment -/

theorem dedupAux_norm_spec (l : List Source) :
    ∀ seen : List String,
      (∀ s ∈ dedupAux seen l, normalizeUrl s.url ∉ seen) ∧
      ((dedupAux seen l).map (fun s => normalizeUrl s.url)).Nodup := by
  induction l with
  | nil => intro seen; simp [dedupAux]
  | cons a rest ih =>
    intro seen
    by_cases h : normalizeUrl a.url ≠ "" ∧ normalizeUrl a.url ∉ seen
    · obtain ⟨ih1, ih2⟩ := ih (normalizeUrl a.url :: seen)
      simp only [dedupAux, if_pos h]
      constructor
      · intro s hs
        rcases List.mem_cons.1 hs with rfl | hs2
        · exact h.2
        · intro hmem
          exact ih1 s hs2 (List.mem_cons_of_mem _ hmem)
      · rw [List.map_cons, List.nodup_cons]
        refine ⟨?_, ih2⟩
        intro hmem
        obtain ⟨s, hs, heq⟩ := List.mem_map.1 hmem
        exact ih1 s hs (heq ▸ List.mem_cons_self _ _)
    · simp only [dedupAux, if_neg h]
      exact ih seen

theorem assignIdsFrom_map_id (l : List Source) :
    ∀ n : Nat, (assignIdsFrom n l).map (fun s => s.id) = List.range' n l.length := by
  induction l with
  | nil => intro n; simp [assignIdsFrom]
  | cons a rest ih =>
    intro n
    simp only [assignIdsFrom, List.map_cons, List.length_cons, List.range'_succ]
    rw [ih (n + 1)]

theorem assignIdsFrom_map_url (l : List Source) :
    ∀ n : Nat, (assignIdsFrom n l).map (fun s => s.url) = l.map (fun s => s.url) := by
  induction l with
  | nil => intro n; simp [assignIdsFrom]
  | cons a rest ih =>
    intro n
    simp only [assignIdsFrom, List.map_cons]
    rw [ih (n + 1)]

theorem assignIdsFrom_exists_id (l : List Source) :
    ∀ n k : Nat, n ≤ k → k < n + l.length →
      ∃ src ∈ assignIdsFrom n l, src.id = k := by
  induction l with
  | nil => intro n k h1 h2; simp at h2; omega
  | cons a rest ih =>
    intro n k h1 h2
    by_cases hk : k = n
    · exact ⟨{ a with id := n }, List.mem_cons_self _ _, hk.symm⟩
    · have h3 : n + 1 ≤ k := by omega
      have h4 : k < (n + 1) + rest.length := by simp at h2; omega
      obtain ⟨src, hmem, hid⟩ := ih (n + 1) k h3 h4
      exact ⟨src, List.mem_cons_of_mem _ hmem, hid⟩

/-! ### Helper lemmas: exporter source map -/

theorem foldl_dictStep_mem (l : List Source) :
    ∀ (m : Nat → Option Source) (k : Nat) (s : Source),
      (l.foldl dictStep m) k = some s → (s ∈ l ∧ s.id = k) ∨ m k = some s := by
  induction l with
  | nil => intro m k s h; exact Or.inr h
  | cons a rest ih =>
    intro m k s h
    rcases ih (dictStep m a) k s h with ⟨hmem, hid⟩ | hm
    · exact Or.inl ⟨List.mem_cons_of_mem _ hmem, hid⟩
    · by_cases hk : k = a.id
      · have ha : a = s := by
          have := hm
          rw [dictStep, if_pos hk] at this
          exact Option.some.inj this
        exact Or.inl ⟨ha ▸ List.mem_cons_self _ _, by rw [← ha, hk]⟩
      · rw [dictStep, if_neg hk] at hm
        exact Or.inr hm

theorem foldl_dictStep_total (l : List Source) :
    ∀ (m : Nat → Option Source) (k : Nat),
      ((∃ s ∈ l, s.id = k) ∨ ∃ t, m k = some t) →
      ∃ t, (l.foldl dictStep m) k = some t := by
  induction l with
  | nil =>
    intro m k h
    rcases h with ⟨s, hs, _⟩ | ht
    · simp at hs
    · exact ht
  | cons a rest ih =>
    intro m k h
    apply ih (dictStep m a) k
    rcases h with ⟨s, hs, hid⟩ | ⟨t, ht⟩
    · rcases List.mem_cons.1 hs with rfl | hs2
      · exact Or.inr ⟨s, by rw [dictStep, if_pos hid.symm]⟩
      · exact Or.inl ⟨s, hs2, hid⟩
    · by_cases hk : k = a.id
      · exact Or.inr ⟨a, by rw [dictStep, if_pos hk]⟩
      · exact Or.inr ⟨t, by rw [dictStep, if_neg hk]; exact ht⟩

theorem dictOfSources_lookup (sources : List Source)
    (hnd : (sources.map (fun s => s.id)).Nodup) (s : Source) (hs : s ∈ sources) :
    dictOfSources sources s.id = some s := by
  obtain ⟨t, ht⟩ :=
    foldl_dictStep_total sources (fun _ => none) s.id (Or.inl ⟨s, hs, rfl⟩)
  rcases foldl_dictStep_mem sources (fun _ => none) s.id t ht with ⟨htm, hti⟩ | hnone
  · have : t = s :=
      List.inj_on_of_nodup_map hnd htm hs hti
    rw [dictOfSources, ht, this]
  · exact absurd hnone (by simp)

/-! ### Helper lemmas: researcher loop control -/

theorem reflect_node_iteration (r : Reflection) (s : ResearcherState) :
    (reflect_node r s).iteration = s.iteration + 1 := by
  by_cases h : s.max_iterations ≤ s.iteration + 1 <;> simp [reflect_node, h]

theorem reflect_node_max (r : Reflection) (s : ResearcherState) :
    (reflect_node r s).max_iterations = s.max_iterations := by
  by_cases h : s.max_iterations ≤ s.iteration + 1 <;> simp [reflect_node, h]

theorem should_continue_summarize_of_cap (s : ResearcherState)
    (h : s.max_iterations ≤ s.iteration) : should_continue s = "summarize" := by
  simp [should_continue, h]

theorem lt_cap_of_not_summarize (s : ResearcherState)
    (h : should_continue s ≠ "summarize") : s.iteration < s.max_iterations := by
  by_contra hge
  push_neg at hge
  exact h (should_continue_summarize_of_cap s hge)

theorem reflectLoop_reaches (fuel : Nat) :
    ∀ (orc : Nat → Reflection) (s : ResearcherState),
      s.max_iterations ≤ s.iteration + fuel → 1 ≤ fuel →
      ∃ p, reflectLoop orc fuel s = some p ∧ p ≤ fuel := by
  induction fuel with
  | zero => intro orc s _ h1; omega
  | succ k ih =>
    intro orc s hcap _
    by_cases hs : should_continue (reflect_node (orc s.iteration) s) = "summarize"
    · exact ⟨1, by simp [reflectLoop, hs], by omega⟩
    · have hlt := lt_cap_of_not_summarize _ hs
      rw [reflect_node_iteration, reflect_node_max] at hlt
      have hk1 : 1 ≤ k := by omega
      have hcap2 : (reflect_node (orc s.iteration) s).max_iterations ≤
          (reflect_node (orc s.iteration) s).iteration + k := by
        rw [reflect_node_iteration, reflect_node_max]; omega
      obtain ⟨p, hp, hpk⟩ := ih orc (reflect_node (orc s.iteration) s) hcap2 hk1
      exact ⟨p + 1, by simp [reflectLoop, hs, hp], by omega⟩

/-! ### Helper lemmas: orchestrator iteration bookkeeping -/

theorem dispatch_node_iteration (o : String → RunResult) (s : OrchestratorState) :
    (dispatch_node o s).iteration =
      if (tasksToRun s).isEmpty then s.iteration else s.iteration + 1 := by
  by_cases h : (tasksToRun s).isEmpty <;> simp [dispatch_node, h]

theorem dispatch_node_max (o : String → RunResult) (s : OrchestratorState) :
    (dispatch_node o s).max_iterations = s.max_iterations := by
  by_cases h : (tasksToRun s).isEmpty <;> simp [dispatch_node, h]

theorem critique_node_iteration (nt : List String) (s : OrchestratorState) :
    (critique_node nt s).iteration = s.iteration := by
  simp only [critique_node]
  split_ifs <;> rfl

theorem critique_node_max (nt : List String) (s : OrchestratorState) :
    (critique_node nt s).max_iterations = s.max_iterations := by
  simp only [critique_node]
  split_ifs <;> rfl

theorem plan_node_iteration (s : OrchestratorState) :
    (plan_node s).iteration = s.iteration := rfl

theorem sco_dispatch_lt (s : OrchestratorState)
    (h : should_continue_orchestrator s = "dispatch") :
    s.iteration < s.max_iterations := by
  by_cases hc : (pendingTopics s ≠ [] ∨ s.retry_queue ≠ []) ∧ s.iteration < s.max_iterations
  · exact hc.2
  · rw [should_continue_orchestrator, if_neg hc] at h
    exact absurd h (by decide)

theorem orchRun_iteration_le (oD : Nat → String → RunResult) (oC : Nat → List String) :
    ∀ (fuel : Nat) (s : OrchestratorState),
      s.iteration ≤ (orchRun oD oC fuel s).iteration := by
  intro fuel
  induction fuel with
  | zero => intro s; simp [orchRun]
  | succ k ih =>
    intro s
    have h1 : s.iteration ≤ (critique_node (oC k) (dispatch_node (oD k) s)).iteration := by
      rw [critique_node_iteration, dispatch_node_iteration]
      split <;> omega
    by_cases hb : should_continue_orchestrator
        (critique_node (oC k) (dispatch_node (oD k) s)) = "dispatch"
    · simp only [orchRun, hb, if_pos]
      exact le_trans h1 (ih _)
    · simp only [orchRun, if_neg hb]
      exact h1

theorem orchRun_iteration_bounded (oD : Nat → String → RunResult) (oC : Nat → List String) :
    ∀ (fuel : Nat) (s : OrchestratorState),
      s.iteration < s.max_iterations →
      (orchRun oD oC fuel s).iteration ≤ s.max_iterations := by
  intro fuel
  induction fuel with
  | zero => intro s h; simp [orchRun]; omega
  | succ k ih =>
    intro s h
    have h1 : (critique_node (oC k) (dispatch_node (oD k) s)).iteration ≤ s.max_iterations := by
      rw [critique_node_iteration, dispatch_node_iteration]
      split <;> omega
    have hmax : (critique_node (oC k) (dispatch_node (oD k) s)).max_iterations =
        s.max_iterations := by
      rw [critique_node_max, dispatch_node_max]
    by_cases hb : should_continue_orchestrator
        (critique_node (oC k) (dispatch_node (oD k) s)) = "dispatch"
    · simp only [orchRun, hb, if_pos]
      have hlt := sco_dispatch_lt _ hb
      have := ih (critique_node (oC k) (dispatch_node (oD k) s)) hlt
      omega
    · simp only [orchRun, if_neg hb]
      exact h1

/-! ### Helper lemmas: retry-queue processing -/

theorem processRetryQueue_mem_kept (i : Nat) (q : List RetryItem) (r : RetryItem)
    (hq : r ∈ q) (hne : ¬ 2 ^ (r.attempt - 1) ≤ i - r.last_attempt_at) :
    r ∈ (processRetryQueue i q).kept := by
  induction q with
  | nil => simp at hq
  | cons a rest ih =>
    rcases List.mem_cons.1 hq with rfl | hmem
    · simp only [processRetryQueue, if_neg hne]
      exact List.mem_cons_self _ _
    · by_cases h1 : 2 ^ (a.attempt - 1) ≤ i - a.last_attempt_at
      · by_cases h2 : a.attempt < 3
        · simp only [processRetryQueue, if_pos h1, if_pos h2]
          exact ih hmem
        · simp only [processRetryQueue, if_pos h1, if_neg h2]
          exact ih hmem
      · simp only [processRetryQueue, if_neg h1]
        exact List.mem_cons_of_mem _ (ih hmem)

theorem processRetryQueue_mem_toRetry (i : Nat) (q : List RetryItem) (r : RetryItem)
    (hq : r ∈ q) (he : 2 ^ (r.attempt - 1) ≤ i - r.last_attempt_at)
    (ha : r.attempt < 3) :
    r ∈ (processRetryQueue i q).toRetry := by
  induction q with
  | nil => simp at hq
  | cons a rest ih =>
    rcases List.mem_cons.1 hq with rfl | hmem
    · simp only [processRetryQueue, if_pos he, if_pos ha]
      exact List.mem_cons_self _ _
    · by_cases h1 : 2 ^ (a.attempt - 1) ≤ i - a.last_attempt_at
      · by_cases h2 : a.attempt < 3
        · simp only [processRetryQueue, if_pos h1, if_pos h2]
          exact List.mem_cons_of_mem _ (ih hmem)
        · simp only [processRetryQueue, if_pos h1, if_neg h2]
          exact ih hmem
      · simp only [processRetryQueue, if_neg h1]
        exact ih hmem

theorem processRetryQueue_mem_failed (i : Nat) (q : List RetryItem) (r : RetryItem)
    (hq : r ∈ q) (he : 2 ^ (r.attempt - 1) ≤ i - r.last_attempt_at)
    (ha : 3 ≤ r.attempt) :
    r.topic ∈ (processRetryQueue i q).failed := by
  induction q with
  | nil => simp at hq
  | cons a rest ih =>
    rcases List.mem_cons.1 hq with rfl | hmem
    · have h2 : ¬ r.attempt < 3 := by omega
      simp only [processRetryQueue, if_pos he, if_neg h2]
      exact Finset.mem_insert_self _ _
    · by_cases h1 : 2 ^ (a.attempt - 1) ≤ i - a.last_attempt_at
      · by_cases h2 : a.attempt < 3
        · simp only [processRetryQueue, if_pos h1, if_pos h2]
          exact ih hmem
        · simp only [processRetryQueue, if_pos h1, if_neg h2]
          exact Finset.mem_insert_of_mem (ih hmem)
      · simp only [processRetryQueue, if_neg h1]
        exact ih hmem

theorem processRetryQueue_toRetry_spec (i : Nat) (q : List RetryItem) (r : RetryItem)
    (hr : r ∈ (processRetryQueue i q).toRetry) :
    r ∈ q ∧ 2 ^ (r.attempt - 1) ≤ i - r.last_attempt_at ∧ r.attempt < 3 := by
  induction q with
  | nil => simp [processRetryQueue] at hr
  | cons a rest ih =>
    by_cases h1 : 2 ^ (a.attempt - 1) ≤ i - a.last_attempt_at
    · by_cases h2 : a.attempt < 3
      · simp only [processRetryQueue, if_pos h1, if_pos h2] at hr
        rcases List.mem_cons.1 hr with rfl | hmem
        · exact ⟨List.mem_cons_self _ _, h1, h2⟩
        · obtain ⟨hq, he, ha⟩ := ih hmem
          exact ⟨List.mem_cons_of_mem _ hq, he, ha⟩
      · simp only [processRetryQueue, if_pos h1, if_neg h2] at hr
        obtain ⟨hq, he, ha⟩ := ih hr
        exact ⟨List.mem_cons_of_mem _ hq, he, ha⟩
    · simp only [processRetryQueue, if_neg h1] at hr
      obtain ⟨hq, he, ha⟩ := ih hr
      exact ⟨List.mem_cons_of_mem _ hq, he, ha⟩

theorem processRetryQueue_kept_spec (i : Nat) (q : List RetryItem) (r : RetryItem)
    (hr : r ∈ (processRetryQueue i q).kept) :
    r ∈ q ∧ ¬ 2 ^ (r.attempt - 1) ≤ i - r.last_attempt_at := by
  induction q with
  | nil => simp [processRetryQueue] at hr
  | cons a rest ih =>
    by_cases h1 : 2 ^ (a.attempt - 1) ≤ i - a.last_attempt_at
    · by_cases h2 : a.attempt < 3
      · simp only [processRetryQueue, if_pos h1, if_pos h2] at hr
        obtain ⟨hq, he⟩ := ih hr
        exact ⟨List.mem_cons_of_mem _ hq, he⟩
      · simp only [processRetryQueue, if_pos h1, if_neg h2] at hr
        obtain ⟨hq, he⟩ := ih hr
        exact ⟨List.mem_cons_of_mem _ hq, he⟩
    · simp only [processRetryQueue, if_neg h1] at hr
      rcases List.mem_cons.1 hr with rfl | hmem
      · exact ⟨List.mem_cons_self _ _, h1⟩
      · obtain ⟨hq, he⟩ := ih hmem
        exact ⟨List.mem_cons_of_mem _ hq, he⟩

/-- The reconciliation fold only ever inserts into the failed-topic set. -/
theorem reconcile_failed_mono (tasks : List DispatchTask)
    (rt : List RetryItem) (iter : Nat) (o : String → RunResult) :
    ∀ acc : Reconcile,
      acc.failed ⊆
        (tasks.foldl (fun a t => reconcileStep rt iter a t (o t.topic)) acc).failed := by
  induction tasks with
  | nil => intro acc; simp
  | cons t rest ih =>
    intro acc
    refine subset_trans ?_ (ih (reconcileStep rt iter acc t (o t.topic)))
    unfold reconcileStep
    cases o t.topic with
    | ok c scraped => exact subset_rfl
    | err msg =>
      dsimp only
      split
      · exact subset_rfl
      · exact Finset.subset_insert _ _

/-! ## Claim theorems -/

/-- Claim C1, counterexample: with one collected source and the model report
`"[2]"`, the synthesized result's `citations` list contains 2, but no source
in `sources_used` (which holds the single source, with id 1) carries id 2 —
`synthesize_node` performs no filtering of extracted ids against the source
list, so the claimed structural guarantee fails for this report text. -/
theorem synthesize_unfiltered_citation_cex :
    2 ∈ (synthesize_success cexSynthState ("[2]")).citations ∧
    ∀ src ∈ (synthesize_success cexSynthState ("[2]")).sources_used, src.id ≠ 2 := by
  decide

/-- Claim C1 (amended): the success path's `citations` are exactly the sorted
ids extracted from the report text, unfiltered; hence every cited id has a
matching source in `sources_used` provided the extracted ids all lie in
`1..k` (`k` the de-duplicated source count) — and the model-failure fallback
path satisfies the guarantee unconditionally, its `citations` being empty. -/
theorem synthesize_citations_structural :
    (∀ (s : OrchestratorState) (report : String),
      (∀ c ∈ extract_all_citations report,
        1 ≤ c ∧ c ≤ (deduplicate_sources s.all_sources).length) →
      ∀ c ∈ (synthesize_success s report).citations,
        ∃ src ∈ (synthesize_success s report).sources_used, src.id = c) ∧
    (∀ s : OrchestratorState,
      ∀ c ∈ (synthesize_fallback s).citations,
        ∃ src ∈ (synthesize_fallback s).sources_used, src.id = c) := by
  constructor
  · intro s report hrange c hc
    have hc2 : c ∈ extract_all_citations report := by
      have : c ∈ sortedIds (extract_all_citations report) := hc
      exact (mem_sortedIds _ _).1 this
    obtain ⟨h1, h2⟩ := hrange c hc2
    have h3 : c < 1 + (deduplicate_sources s.all_sources).length := by omega
    obtain ⟨src, hmem, hid⟩ :=
      assignIdsFrom_exists_id (deduplicate_sources s.all_sources) 1 c h1 h3
    exact ⟨src, hmem, hid⟩
  · intro s c hc
    simp [synthesize_fallback] at hc

/-- Claim C1 witness: the amended guarantee at a concrete in-range input. -/
theorem synthesize_citations_structural_witness :
    ∃ src ∈ (synthesize_success cexSynthState ("[1]")).sources_used, src.id = 1 :=
  synthesize_citations_structural.1 cexSynthState ("[1]") (by decide) 1 (by decide)

/-- Claim C2, counterexample: sub-topic `"T"` fails with a retriable
`"timeout"` on every run.  Across the first four dispatch rounds it is
dispatched 1 + 2 + 1 + 3 = 7 times: the pending-topics list never excludes a
topic that sits in the retry queue (or that was moved to `failed_topics`
earlier in the same call), so `"T"` is re-run through the pending path even
while its retry item is cooling down, and again in the very call that
"permanently fails" it — it is retried a fourth (and fifth, and sixth) time,
exceeding the one initial run plus at most three retries the claim permits. -/
theorem retry_topic_redispatched_cex :
    runCountT cexInit + runCountT cexS1 + runCountT cexS2 + runCountT cexS3 = 7 ∧
    ¬ (runCountT cexInit + runCountT cexS1 + runCountT cexS2 + runCountT cexS3 ≤ 1 + 3) := by
  decide

/-- Claim C2 (amended): the retry-queue discipline itself is as claimed —
an item is not dispatched from the queue before `i - t ≥ 2^(a-1)`
(in particular an `attempt = 2` item queued at `last_attempt_at = 5` stays
queued until iteration 7 and is dispatched at 7), an eligible item with
`attempt ≥ 3` is moved to `failed_topics` and dropped from the queue instead
of being dispatched as a retry, and no item with `attempt ≥ 3` is ever
dispatched as a retry.  (What fails in the original claim is only its final
consequence: the topic can still be re-run through the pending-topics path,
which ignores the retry queue.) -/
theorem retry_backoff_schedule :
    (∀ (i : Nat) (q : List RetryItem) (r : RetryItem), r ∈ q →
      ¬ 2 ^ (r.attempt - 1) ≤ i - r.last_attempt_at →
      r ∈ (processRetryQueue i q).kept ∧ r ∉ (processRetryQueue i q).toRetry) ∧
    (∀ (i : Nat) (q : List RetryItem) (r : RetryItem), r ∈ q →
      2 ^ (r.attempt - 1) ≤ i - r.last_attempt_at → r.attempt < 3 →
      r ∈ (processRetryQueue i q).toRetry) ∧
    (∀ (i : Nat) (q : List RetryItem) (r : RetryItem), r ∈ q →
      2 ^ (r.attempt - 1) ≤ i - r.last_attempt_at → 3 ≤ r.attempt →
      r.topic ∈ (processRetryQueue i q).failed ∧
      r ∉ (processRetryQueue i q).toRetry ∧ r ∉ (processRetryQueue i q).kept) ∧
    (∀ (i : Nat) (q : List RetryItem) (r : RetryItem),
      r ∈ (processRetryQueue i q).toRetry → r.attempt < 3) ∧
    (∀ (o : String → RunResult) (s : OrchestratorState) (r : RetryItem),
      r ∈ s.retry_queue → 2 ^ (r.attempt - 1) ≤ s.iteration - r.last_attempt_at →
      3 ≤ r.attempt → r.topic ∈ (dispatch_node o s).failed_topics) ∧
    (∀ (i : Nat) (q : List RetryItem) (r : RetryItem), r ∈ q →
      r.attempt = 2 → r.last_attempt_at = 5 → i < 7 →
      r ∉ (processRetryQueue i q).toRetry) ∧
    (∀ (q : List RetryItem) (r : RetryItem), r ∈ q →
      r.attempt = 2 → r.last_attempt_at = 5 →
      r ∈ (processRetryQueue 7 q).toRetry) := by
  have hfs : ∀ (o : String → RunResult) (s : OrchestratorState),
      s.failed_topics ∪ (processRetryQueue s.iteration s.retry_queue).failed ⊆
        (dispatch_node o s).failed_topics := by
    intro o s
    by_cases ht : (tasksToRun s).isEmpty
    · simp only [dispatch_node, if_pos ht]
      exact subset_rfl
    · simp only [dispatch_node, if_neg ht]
      exact reconcile_failed_mono (tasksToRun s)
        (processRetryQueue s.iteration s.retry_queue).toRetry s.iteration o
        ⟨[], [], (processRetryQueue s.iteration s.retry_queue).kept,
          s.global_scraped_urls,
          s.failed_topics ∪ (processRetryQueue s.iteration s.retry_queue).failed⟩
  refine ⟨?_, ?_, ?_, ?_, ?_, ?_, ?_⟩
  · intro i q r hq hne
    refine ⟨processRetryQueue_mem_kept i q r hq hne, fun hmem => ?_⟩
    exact hne (processRetryQueue_toRetry_spec i q r hmem).2.1
  · exact processRetryQueue_mem_toRetry
  · intro i q r hq he ha
    refine ⟨processRetryQueue_mem_failed i q r hq he ha, fun hmem => ?_, fun hmem => ?_⟩
    · have := (processRetryQueue_toRetry_spec i q r hmem).2.2
      omega
    · exact (processRetryQueue_kept_spec i q r hmem).2 he
  · intro i q r hmem
    exact (processRetryQueue_toRetry_spec i q r hmem).2.2
  · intro o s r hq he ha
    exact hfs o s
      (Finset.mem_union_right _ (processRetryQueue_mem_failed s.iteration s.retry_queue r hq he ha))
  · intro i q r hq ha ht hi hmem
    have := (processRetryQueue_toRetry_spec i q r hmem).2.1
    rw [ha, ht] at this
    omega
  · intro q r hq ha ht
    exact processRetryQueue_mem_toRetry 7 q r hq (by rw [ha, ht]; decide) (by omega)

/-- Claim C2 witness: the concrete schedule instance — an `attempt = 2` item
queued at iteration 5 is dispatched from the queue at iteration 7. -/
theorem retry_backoff_schedule_witness :
    (⟨"T", 2, "timeout", 5⟩ : RetryItem) ∈
      (processRetryQueue 7 [⟨"T", 2, "timeout", 5⟩]).toRetry :=
  retry_backoff_schedule.2.2.2.2.2.2 [⟨"T", 2, "timeout", 5⟩] ⟨"T", 2, "timeout", 5⟩
    (by decide) rfl rfl

/-- Claim C3, counterexample: the claim quantifies over every initial
`ResearcherState` with `max_iterations = m` and asserts `summarize` is reached
after at most `m` reflect passes; at `m = 0` the graph still enters `reflect`
once (search → scrape_index → retrieve → reflect is unconditional), so the
run reaches `summarize` only after exactly 1 > 0 passes. -/
theorem researcher_zero_cap_cex :
    reflectLoop contTrue 1 (initialResearcherState ("t") 0) = some 1 ∧ ¬ (1 ≤ 0) := by
  constructor
  · decide
  · decide

/-- Claim C3 (amended): for every cap `m ≥ 1` (in particular the `m = 2` the
orchestrator always instantiates) and every sequence of reflection outcomes
the model may produce, the researcher reaches `summarize` after at most `m`
passes through `reflect`; moreover `reflect` increments the iteration counter
first and, once the new count reaches the cap, returns only the counter —
appending no reflection and ignoring the model entirely — and the edge
function routes to `summarize` whenever `iteration ≥ max_iterations`. -/
theorem researcher_reaches_summarize :
    (∀ (m : Nat) (orc : Nat → Reflection) (topic : String), 1 ≤ m →
      ∃ p, reflectLoop orc m (initialResearcherState topic m) = some p ∧ p ≤ m) ∧
    (∀ (r : Reflection) (s : ResearcherState), s.max_iterations ≤ s.iteration + 1 →
      reflect_node r s = { s with iteration := s.iteration + 1 }) ∧
    (∀ (r r2 : Reflection) (s : ResearcherState), s.max_iterations ≤ s.iteration + 1 →
      reflect_node r s = reflect_node r2 s) ∧
    (∀ s : ResearcherState, s.max_iterations ≤ s.iteration →
      should_continue s = "summarize") := by
  refine ⟨?_, ?_, ?_, should_continue_summarize_of_cap⟩
  · intro m orc topic hm
    exact reflectLoop_reaches m orc (initialResearcherState topic m)
      (by simp [initialResearcherState]) hm
  · intro r s h
    simp [reflect_node, h]
  · intro r r2 s h
    simp [reflect_node, h]

/-- Claim C3 witness: the amended bound at the instantiated cap `m = 2`. -/
theorem researcher_reaches_summarize_witness :
    ∃ p, reflectLoop contTrue 2 (initialResearcherState ("t") 2) = some p ∧ p ≤ 2 :=
  researcher_reaches_summarize.1 2 contTrue ("t") (by decide)

/-- Claim C4: on both machines the iteration counter is non-decreasing and
capped.  Dispatch returns `iteration` unchanged on an empty batch and
`iteration + 1` otherwise; critique and plan never touch it; the orchestrator
edge re-enters dispatch only while `iteration < max_iterations`, so along any
run of the loop from a state below the cap (the pipeline seeds `iteration = 0`
with `max_iterations ∈ {5, 8}`) the counter is monotone and never exceeds the
cap; the researcher's reflect sets the counter to its predecessor plus one,
the researcher edge summarizes at the cap, and a reflect step from below the
cap stays within it. -/
theorem iteration_monotone_bounded :
    (∀ (o : String → RunResult) (s : OrchestratorState),
      (dispatch_node o s).iteration =
        if (tasksToRun s).isEmpty then s.iteration else s.iteration + 1) ∧
    (∀ (nt : List String) (s : OrchestratorState),
      (critique_node nt s).iteration = s.iteration ∧ (plan_node s).iteration = s.iteration) ∧
    (∀ s : OrchestratorState,
      should_continue_orchestrator s = "dispatch" → s.iteration < s.max_iterations) ∧
    (∀ (oD : Nat → String → RunResult) (oC : Nat → List String) (fuel : Nat)
        (s : OrchestratorState),
      s.iteration ≤ (orchRun oD oC fuel s).iteration) ∧
    (∀ (oD : Nat → String → RunResult) (oC : Nat → List String) (fuel : Nat)
        (s : OrchestratorState),
      s.iteration < s.max_iterations →
      (orchRun oD oC fuel s).iteration ≤ s.max_iterations) ∧
    (∀ (r : Reflection) (s : ResearcherState),
      (reflect_node r s).iteration = s.iteration + 1) ∧
    (∀ s : ResearcherState, s.max_iterations ≤ s.iteration →
      should_continue s = "summarize") ∧
    (∀ (r : Reflection) (s : ResearcherState), s.iteration < s.max_iterations →
      (reflect_node r s).iteration ≤ s.max_iterations) := by
  refine ⟨dispatch_node_iteration,
    fun nt s => ⟨critique_node_iteration nt s, plan_node_iteration s⟩,
    sco_dispatch_lt,
    fun oD oC => orchRun_iteration_le oD oC,
    fun oD oC => orchRun_iteration_bounded oD oC,
    reflect_node_iteration,
    should_continue_summarize_of_cap,
    ?_⟩
  intro r s h
  rw [reflect_node_iteration]
  omega

/-- Claim C4 witness: the orchestrator edge's guard at a concrete state. -/
theorem iteration_monotone_bounded_witness :
    cexInit.iteration < cexInit.max_iterations :=
  iteration_monotone_bounded.2.2.1 cexInit (by decide)

/-- Claim C5: citation extraction maps `"claim [1, 2] and another [3]"` to
exactly `{1, 2, 3}`, extracts nothing from `"[R1]"` or `"[Topic 1]"` (the
regex class admits no letters), and the orchestrator's and the exporter's
copies compute the same function on every input text. -/
theorem citation_extraction_correct :
    extract_all_citations ("claim [1, 2] and another [3]") = {1, 2, 3} ∧
    extract_all_citations ("[R1]") = ∅ ∧
    extract_all_citations ("[Topic 1]") = ∅ ∧
    extract_citations_from_text ("claim [1, 2] and another [3]") = {1, 2, 3} ∧
    extract_citations_from_text ("[R1]") = ∅ ∧
    extract_citations_from_text ("[Topic 1]") = ∅ ∧
    ∀ text : String, extract_citations_from_text text = extract_all_citations text :=
  ⟨by decide, by decide, by decide, by decide, by decide, by decide, fun _ => rfl⟩

/-- Claim C6: the two URLs of the claim normalise identically, so the second
source is dropped; in general no two entries of the de-duplicated list share a
normalised URL, and the id-assignment pass gives the surviving sources exactly
the consecutive ids `1..k` in list (de-duplication) order while leaving the
sources themselves (here: their URLs) unchanged. -/
theorem dedup_collapse_and_ids :
    deduplicate_sources
        [⟨"https://a.com/x#frag", "A", 0⟩, ⟨"https://a.com/x/", "B", 0⟩]
      = [⟨"https://a.com/x#frag", "A", 0⟩] ∧
    (∀ l : List Source,
      ((deduplicate_sources l).map (fun s => normalizeUrl s.url)).Nodup) ∧
    (∀ l : List Source,
      (assignIds (deduplicate_sources l)).map (fun s => s.id)
        = List.range' 1 (deduplicate_sources l).length) ∧
    (∀ l : List Source,
      (assignIds l).map (fun s => s.url) = l.map (fun s => s.url)) :=
  ⟨by decide,
   fun l => (dedupAux_norm_spec l []).2,
   fun l => assignIdsFrom_map_id (deduplicate_sources l) 1,
   fun l => assignIdsFrom_map_url l 1⟩

/-- Claim C7, counterexample: two chunks with the identical score 1 and the
disjoint vocabularies `{"a"}` and `{"b"}`.  The similarity penalty is indeed
zero, but the MMR formula still multiplies the second chunk's relevance by
`λ = 0.7`, so only the first chunk retains its score: the result is
`[1, 0.7]`, not the claimed `[1, 1]`. -/
theorem mmr_disjoint_cex :
    calculate_mmr_scores [⟨"a", 1⟩, ⟨"b", 1⟩] = [1, 7/10] ∧ ((7 : ℚ)/10) ≠ 1 := by
  constructor
  · simp [calculate_mmr_scores, mmrAux, maxSimTo, jaccardSim, lambdaParam]
    norm_num [show (wordsOf ("b") ∩ wordsOf ("a")).card = 0 from by decide,
              show (wordsOf ("b") ∪ wordsOf ("a")).card = 2 from by decide]
  · norm_num

/-- Claim C7 (amended): for two chunks of equal relevance score, the first
always keeps its score; with disjoint vocabularies the second incurs no
similarity penalty but is still scaled by `λ`, giving `λ·score` (equal to the
original score only at score 0); with identical content the second's MMR score
is `λ·score − (1−λ)·max_sim` and is strictly below its raw relevance score
whenever the score is nonnegative and the content has at least one word
(and, for any content, whenever the score is strictly positive). -/
theorem mmr_tie_breaking :
    ∀ c1 c2 : Chunk, c1.score = c2.score →
      (wordsOf c1.content ∩ wordsOf c2.content = ∅ →
        calculate_mmr_scores [c1, c2] = [c1.score, lambdaParam * c2.score]) ∧
      (c1.content = c2.content → (wordsOf c2.content).Nonempty → 0 ≤ c2.score →
        calculate_mmr_scores [c1, c2] =
          [c1.score, lambdaParam * c2.score - (1 - lambdaParam)] ∧
        lambdaParam * c2.score - (1 - lambdaParam) < c2.score) ∧
      (c1.content = c2.content → 0 < c2.score →
        calculate_mmr_scores [c1, c2] =
          [c1.score, lambdaParam * c2.score - (1 - lambdaParam) * maxSimTo c2 [c1]] ∧
        lambdaParam * c2.score - (1 - lambdaParam) * maxSimTo c2 [c1] < c2.score) := by
  have hunf : ∀ a b : Chunk, calculate_mmr_scores [a, b] =
      [a.score, lambdaParam * b.score - (1 - lambdaParam) * maxSimTo b [a]] := by
    intro a b
    simp [calculate_mmr_scores, mmrAux]
  have hself : ∀ c1 c2 : Chunk, c1.content = c2.content →
      (wordsOf c2.content).Nonempty → maxSimTo c2 [c1] = 1 := by
    intro c1 c2 heq hne
    have hcard : 0 < (wordsOf c2.content).card := Finset.card_pos.2 hne
    have hj : jaccardSim (wordsOf c2.content) (wordsOf c1.content) = 1 := by
      rw [heq, jaccardSim, Finset.inter_self, Finset.union_self,
        max_eq_left (by omega : 1 ≤ (wordsOf c2.content).card)]
      exact div_self (by exact_mod_cast Nat.pos_iff_ne_zero.1 hcard)
    simp [maxSimTo, hj]
  have hempty : ∀ c1 c2 : Chunk, c1.content = c2.content →
      wordsOf c2.content = ∅ → maxSimTo c2 [c1] = 0 := by
    intro c1 c2 heq hw
    simp [maxSimTo, jaccardSim, heq, hw]
  intro c1 c2 _
  refine ⟨?_, ?_, ?_⟩
  · intro hdis
    have hms : maxSimTo c2 [c1] = 0 := by
      have h0 : (wordsOf c2.content ∩ wordsOf c1.content).card = 0 := by
        rw [Finset.inter_comm, hdis]
        rfl
      simp [maxSimTo, jaccardSim, h0]
    rw [hunf, hms]
    norm_num
  · intro heq hne hpos
    have hms := hself c1 c2 heq hne
    constructor
    · rw [hunf, hms]
      norm_num
    · rw [lambdaParam]
      linarith
  · intro heq hpos
    refine ⟨hunf c1 c2, ?_⟩
    by_cases hw : wordsOf c2.content = ∅
    · rw [hempty c1 c2 heq hw, lambdaParam]
      linarith
    · rw [hself c1 c2 heq (Finset.nonempty_iff_ne_empty.2 hw), lambdaParam]
      linarith

/-- Claim C7 witness: the amended statement at the counterexample's chunks. -/
theorem mmr_tie_breaking_witness :
    calculate_mmr_scores [⟨"a", (1 : ℚ)⟩, ⟨"b", 1⟩] = [(1 : ℚ), lambdaParam * 1] :=
  (mmr_tie_breaking ⟨"a", (1 : ℚ)⟩ ⟨"b", 1⟩ rfl).1 (by decide)

/-- Claim C8: when the report text cites exactly `{1, 2}` and the sources
list carries distinct ids including 1 and 2, the exporter's References
section lists exactly the two cited sources in ascending id order; any source
whose id is not cited never appears among the entries. -/
theorem export_references_exact :
    ∀ (report : String) (sources : List Source) (s1 s2 : Source),
      extract_citations_from_text report = ({1, 2} : Finset Nat) →
      (sources.map (fun s => s.id)).Nodup →
      s1 ∈ sources → s1.id = 1 → s2 ∈ sources → s2.id = 2 →
      referencesEntries report sources = [(1, s1), (2, s2)] ∧
      (∀ s3 ∈ sources, s3.id ≠ 1 → s3.id ≠ 2 →
        ∀ p ∈ referencesEntries report sources, p.2 ≠ s3) := by
  intro report sources s1 s2 hext hnd hm1 hid1 hm2 hid2
  have hd1 : dictOfSources sources 1 = some s1 := by
    have := dictOfSources_lookup sources hnd s1 hm1
    rwa [hid1] at this
  have hd2 : dictOfSources sources 2 = some s2 := by
    have := dictOfSources_lookup sources hnd s2 hm2
    rwa [hid2] at this
  have hrefs : referencesEntries report sources = [(1, s1), (2, s2)] := by
    rw [referencesEntries, hext,
      show sortedIds ({1, 2} : Finset Nat) = [1, 2] from by decide]
    simp [hd1, hd2]
  refine ⟨hrefs, ?_⟩
  intro s3 _ h31 h32 p hp heq
  rw [hrefs] at hp
  rcases List.mem_cons.1 hp with rfl | hp2
  · exact h31 (heq ▸ hid1)
  · rw [List.mem_singleton] at hp2
    subst hp2
    exact h32 (heq ▸ hid2)

/-- Claim C8 witness: a report citing `[1]` and `[2]` over three sources with
ids 1, 2, 3 — the References entries are the first two sources in order, and
the uncited third is omitted. -/
theorem export_references_exact_witness :
    referencesEntries ("see [1] and [2]")
        [⟨"https://u1", "t1", 1⟩, ⟨"https://u2", "t2", 2⟩, ⟨"https://u3", "t3", 3⟩]
      = [(1, ⟨"https://u1", "t1", 1⟩), (2, ⟨"https://u2", "t2", 2⟩)] :=
  (export_references_exact ("see [1] and [2]")
    [⟨"https://u1", "t1", 1⟩, ⟨"https://u2", "t2", 2⟩, ⟨"https://u3", "t3", 3⟩]
    ⟨"https://u1", "t1", 1⟩ ⟨"https://u2", "t2", 2⟩
    (by decide) (by decide) (by decide) rfl (by decide) rfl).1

/-- Claim C9, counterexample: when the underlying searcher returns no results,
nothing is saved (`if results:`), so a second call with the identical query is
again a cache miss and the underlying network client is invoked twice, not
exactly once. -/
theorem cached_search_empty_twice_cex :
    (cached_search emptyOracle
        (cached_search emptyOracle cacheInit ("q") 10).2 ("q") 10).2.networkCalls = 2 ∧
    (2 : Nat) ≠ 1 := by
  constructor
  · rfl
  · decide

/-- Claim C9 (amended): provided the first underlying response is non-empty,
two calls with the identical query invoke the network exactly once: the first
call returns the full (untruncated) result list, stores it under the raw
query, and bumps the network-call count by one; the second call returns up to
`num_results` of the stored items with the state — cache and network-call
count — completely unchanged. -/
theorem cached_search_network_once :
    ∀ (oracle : Nat → List SearchResult) (st : CacheState) (q : String) (n1 n2 : Nat),
      (st.search_cache q = none ∨ st.search_cache q = some []) →
      oracle st.networkCalls ≠ [] →
      (cached_search oracle st q n1).1 = oracle st.networkCalls ∧
      (cached_search oracle st q n1).2.networkCalls = st.networkCalls + 1 ∧
      (cached_search oracle st q n1).2.search_cache q = some (oracle st.networkCalls) ∧
      cached_search oracle (cached_search oracle st q n1).2 q n2 =
        ((oracle st.networkCalls).take n2, (cached_search oracle st q n1).2) := by
  intro oracle st q n1 n2 hmiss hne
  have hie : (oracle st.networkCalls).isEmpty = false := by
    cases h : oracle st.networkCalls with
    | nil => exact absurd h hne
    | cons a l => rfl
  have h1 : cached_search oracle st q n1 =
      (oracle st.networkCalls,
        ⟨fun q2 => if q2 = q then some (oracle st.networkCalls) else st.search_cache q2,
          st.networkCalls + 1⟩) := by
    rcases hmiss with h | h <;> simp [cached_search, h, hie]
  rw [h1]
  refine ⟨rfl, rfl, by simp, ?_⟩
  simp [cached_search, hie]

/-- Claim C9 witness: the amended exactly-once property at a concrete
non-empty oracle. -/
theorem cached_search_network_once_witness :
    cached_search oneOracle (cached_search oneOracle cacheInit ("q") 10).2 ("q") 5 =
      ((oneOracle 0).take 5, (cached_search oneOracle cacheInit ("q") 10).2) :=
  (cached_search_network_once oneOracle cacheInit ("q") 10 5 (Or.inl rfl) (by decide)).2.2.2

/-- Claim C10: every value the search step stores in the session cache is a
non-empty list (a search call preserves the all-stored-values-non-empty
invariant), and a cached empty or missing value is treated as a miss: when
the underlying search yields no results, the cache is left completely
unchanged and the network client is invoked — hence invoked again by every
subsequent call with that query. -/
theorem cache_stores_only_nonempty :
    (∀ (oracle : Nat → List SearchResult) (st : CacheState) (q : String) (n : Nat),
      (∀ (q2 : String) (l : List SearchResult), st.search_cache q2 = some l → l ≠ []) →
      ∀ (q2 : String) (l : List SearchResult),
        (cached_search oracle st q n).2.search_cache q2 = some l → l ≠ []) ∧
    (∀ (oracle : Nat → List SearchResult) (st : CacheState) (q : String) (n : Nat),
      (st.search_cache q = none ∨ st.search_cache q = some []) →
      oracle st.networkCalls = [] →
      (cached_search oracle st q n).2.search_cache = st.search_cache ∧
      (cached_search oracle st q n).2.networkCalls = st.networkCalls + 1) := by
  constructor
  · intro oracle st q n hinv q2 l hl
    cases hc : st.search_cache q with
    | none =>
      simp only [cached_search, hc] at hl
      split_ifs at hl with h1 h2
      · exact hinv q2 l hl
      · have : oracle st.networkCalls = l := Option.some.inj hl
        rw [← this]
        intro hnil
        rw [hnil] at h1
        exact h1 rfl
      · exact hinv q2 l hl
    | some cached =>
      by_cases hce : cached.isEmpty
      · simp only [cached_search, hc, hce, if_pos] at hl
        split_ifs at hl with h1 h2
        · exact hinv q2 l hl
        · have : oracle st.networkCalls = l := Option.some.inj hl
          rw [← this]
          intro hnil
          rw [hnil] at h1
          exact h1 rfl
        · exact hinv q2 l hl
      · simp only [cached_search, hc, hce, if_neg, Bool.false_eq_true] at hl
        exact hinv q2 l hl
  · intro oracle st q n hmiss ho
    have hie : (oracle st.networkCalls).isEmpty = true := by
      rw [ho]
      rfl
    rcases hmiss with h | h <;>
      exact ⟨funext fun q2 => by simp [cached_search, h, hie], by simp [cached_search, h, hie]⟩

/-- Claim C10 witness: an empty underlying response at a concrete state
leaves the cache untouched while the network counter advances. -/
theorem cache_stores_only_nonempty_witness :
    (cached_search emptyOracle cacheInit ("q") 10).2.search_cache = cacheInit.search_cache ∧
    (cached_search emptyOracle cacheInit ("q") 10).2.networkCalls = cacheInit.networkCalls + 1 :=
  cache_stores_only_nonempty.2 emptyOracle cacheInit ("q") 10 (Or.inl rfl) rfl
